import Mathlib

/-!
Shallow embedding of `src/fibonacci.py` (class `Fibonacci`): four strategies
computing the nth Fibonacci number with an operation counter `self.numOps`
and a memo dictionary `self.memo` stored on the object.  Wall-clock durations
(`time.clock`) are outside the embedding; each Python method returns a tuple
`(value, numOps, duration)` and we model the `(value, numOps)` part together
with the post-call object state.  A raised Python exception is modelled as a
value carrying the exception class name and the message string.
-/

/-- A raised Python exception: the exception class name and its message. -/
structure PyError where
  excType : String
  msg : String
deriving DecidableEq

/-- The observable part of the tuple returned by each strategy: the computed
value and the operation count (`duration` is wall-clock time, omitted). -/
structure Result where
  value : Nat
  numOps : Nat
deriving DecidableEq

/-- The mutable state of a `Fibonacci` object: `self.memo` (a dict, modelled
as an association list, newest binding first) and `self.numOps`. -/
structure FibState where
  memo : List (Nat × Nat)
  numOps : Nat
deriving DecidableEq

/-- The state built by `Fibonacci.__init__`: empty memo, zero counter. -/
def fibInit : FibState := ⟨[], 0⟩

/-- Mathematical Fibonacci numbers with `fib 1 = fib 2 = 1`. -/
def fib : Nat → Nat
  | 0 => 0
  | 1 => 1
  | n + 2 => fib n + fib (n + 1)

/-- Lookup in the association-list model of a Python dict (`d[k]`, `k in d`). -/
def mlookup : List (Nat × Nat) → Nat → Option Nat
  | [], _ => none
  | (k, v) :: rest, key => if key = k then some v else mlookup rest key

/-- Helper `Fibonacci._recursive`, threading `self.numOps` explicitly.  The
argument `0` never occurs in the program (the public wrapper validates
`n ≥ 1`); on `0` the Python code would recurse without end, which the
embedding models as `none`. -/
def recursiveAux : Nat → Nat → Option (Nat × Nat)
  | 0, _ => none
  | 1, ops => some (1, ops + 1)
  | 2, ops => some (1, ops + 1)
  | n + 3, ops =>
    match recursiveAux (n + 1) ops with
    | none => none
    | some (v1, ops1) =>
      match recursiveAux (n + 2) ops1 with
      | none => none
      | some (v2, ops2) => some (v1 + v2, ops2 + 7)

/-- Method `Fibonacci.recursive`: validation, reset of `self.numOps`, call of
the helper, final `self.numOps += 2`.  Errors carry the unchanged state. -/
def recursive (s : FibState) (n : Int) : Option (Except PyError Result × FibState) :=
  if n < 1 then some (.error ⟨"ValueError", "Invalid value for n!"⟩, s)
  else if n > 40 then some (.error ⟨"ValueError", "TOO BIG"⟩, s)
  else
    (recursiveAux n.toNat 0).map fun p =>
      (.ok ⟨p.1, p.2 + 2⟩, { s with numOps := p.2 + 2 })

/-- Ghost trace of memo-dict events inside one `memoization` call: seeding a
base index, or running the combining step `self.memo[k] = f(k-2) + f(k-1)`. -/
inductive MEvent
  | seed : Nat → MEvent
  | combine : Nat → MEvent
deriving DecidableEq

/-- State threaded through `_memoization`: the dict `self.memo`, the counter
`self.numOps`, and a ghost event trace (absent from the source; it records
seedings and combining steps so that cache discipline can be stated). -/
structure MemoSt where
  memo : List (Nat × Nat)
  ops : Nat
  events : List MEvent
deriving DecidableEq

/-- First seeding block of `_memoization`: `if 1 not in self.memo`. -/
def seedOne (st : MemoSt) : MemoSt :=
  if (mlookup st.memo 1).isSome then st
  else ⟨(1, 1) :: st.memo, st.ops + 2, st.events ++ [MEvent.seed 1]⟩

/-- Second seeding block of `_memoization`: `if 2 not in self.memo`, whose
`else` branch still charges 2 operation units. -/
def seedTwo (st : MemoSt) : MemoSt :=
  if (mlookup st.memo 2).isSome then { st with ops := st.ops + 2 }
  else ⟨(2, 1) :: st.memo, st.ops + 2, st.events ++ [MEvent.seed 2]⟩

/-- Both seeding blocks at the top of `_memoization`, in source order. -/
def seedMemo (st : MemoSt) : MemoSt := seedTwo (seedOne st)

/-- The seed events one entry of `_memoization` emits from a given dict. -/
def seedEvs (m : List (Nat × Nat)) : List MEvent :=
  (if (mlookup m 1).isSome then [] else [MEvent.seed 1]) ++
    (if (mlookup m 2).isSome then [] else [MEvent.seed 2])

/-- Helper `Fibonacci._memoization`.  Seeding happens on every entry; a miss
runs the combining step `self.memo[n] = f(n-2) + f(n-1)` (left call first)
and charges 7; every exit charges 1 and returns `self.memo[n]`.  A miss at
`n ≤ 2` (possible only for `n = 0`, which the wrapper rules out) makes the
source recurse without end and is modelled as `none`. -/
def memoizationAux : Nat → MemoSt → Option (Nat × MemoSt)
  | 0, st =>
    match mlookup (seedMemo st).memo 0 with
    | some v => some (v, { seedMemo st with ops := (seedMemo st).ops + 1 })
    | none => none
  | 1, st =>
    match mlookup (seedMemo st).memo 1 with
    | some v => some (v, { seedMemo st with ops := (seedMemo st).ops + 1 })
    | none => none
  | 2, st =>
    match mlookup (seedMemo st).memo 2 with
    | some v => some (v, { seedMemo st with ops := (seedMemo st).ops + 1 })
    | none => none
  | n + 3, st =>
    match mlookup (seedMemo st).memo (n + 3) with
    | some v => some (v, { seedMemo st with ops := (seedMemo st).ops + 1 })
    | none =>
      match memoizationAux (n + 1) (seedMemo st) with
      | none => none
      | some (v1, stA) =>
        match memoizationAux (n + 2) stA with
        | none => none
        | some (v2, stB) =>
          let stC : MemoSt :=
            ⟨(n + 3, v1 + v2) :: stB.memo, stB.ops + 7,
              stB.events ++ [MEvent.combine (n + 3)]⟩
          some ((mlookup stC.memo (n + 3)).getD 0, { stC with ops := stC.ops + 1 })

/-- Method `Fibonacci.memoization`: validation, reset of `self.memo` and
`self.numOps`, call of the helper, final `self.numOps += 2`. -/
def memoization (s : FibState) (n : Int) : Option (Except PyError Result × FibState) :=
  if n < 1 then some (.error ⟨"ValueError", "Invalid value for n!"⟩, s)
  else if n > 1995 then some (.error ⟨"ValueError", "ERROR"⟩, s)
  else
    match memoizationAux n.toNat ⟨[], 0, []⟩ with
    | none => none
    | some (v, st) => some (.ok ⟨v, st.ops + 2⟩, ⟨st.memo, st.ops + 2⟩)

/-- The `for m in range(3, n+1)` loop of `dynamicProgramming`, indexed by the
remaining iteration count: `value = a + b; a = b; b = value; numOps += 4`. -/
def dpLoop : Nat → Nat → Nat → Nat → Nat → Nat × Nat
  | 0, _, _, value, ops => (value, ops)
  | k + 1, a, b, _, ops => dpLoop k b (a + b) (a + b) (ops + 4)

/-- Method `Fibonacci.dynamicProgramming`.  The upper-bound guard in the
source reads `if n > 2000000`, although the comment next to it says the limit
is 20,000,000. -/
def dynamicProgramming (s : FibState) (n : Int) : Except PyError Result × FibState :=
  if n < 1 then (.error ⟨"ValueError", "invalid value for n!"⟩, s)
  else if n > 2000000 then (.error ⟨"ValueError", "TOO BIG"⟩, s)
  else if n = 1 ∨ n = 2 then (.ok ⟨1, 5⟩, { s with numOps := 5 })
  else
    let r := dpLoop (n.toNat - 2) 1 1 1 3
    (.ok ⟨r.1, r.2⟩, { s with numOps := r.2 })

/-- Method `Fibonacci.closedForm`.  The Binet computation
`round((((1+5**0.5)**n) - ((1-5**0.5)**n)) / ((2**n)*(5**0.5)))` runs in
IEEE-754 double precision; the embedding abstracts that floating-point kernel
as the parameter `val` and keeps the integer-exact control flow (validation,
`self.numOps = 0` followed by `self.numOps += 13`). -/
def closedForm (val : Nat → Nat) (s : FibState) (n : Int) : Except PyError Result × FibState :=
  if n < 1 then (.error ⟨"ValueError", "invalid value for n!"⟩, s)
  else if n > 604 then (.error ⟨"ValueError", "TOO BIG"⟩, s)
  else (.ok ⟨val n.toNat, 13⟩, { s with numOps := 13 })

/-- The computed value of a strategy outcome, when it returned normally. -/
def valueOf (r : Except PyError Result × FibState) : Option Nat :=
  match r.1 with
  | .ok res => some res.value
  | .error _ => none

/-- The operation count of a strategy outcome, when it returned normally. -/
def opsOf (r : Except PyError Result × FibState) : Option Nat :=
  match r.1 with
  | .ok res => some res.numOps
  | .error _ => none

/-- The exception of a strategy outcome, when it raised. -/
def errOf (r : Except PyError Result × FibState) : Option PyError :=
  match r.1 with
  | .ok _ => none
  | .error e => some e

/-- Value projection for the strategies whose model may diverge. -/
def valueOpt (r : Option (Except PyError Result × FibState)) : Option Nat :=
  r.bind valueOf

/-- Operation-count projection for the strategies whose model may diverge. -/
def opsOpt (r : Option (Except PyError Result × FibState)) : Option Nat :=
  r.bind opsOf

/-- Exception projection for the strategies whose model may diverge. -/
def errOpt (r : Option (Except PyError Result × FibState)) : Option PyError :=
  r.bind errOf

/-- Number of base-case returns `_recursive` performs below input `n`. -/
def recLeaves : Nat → Nat
  | 0 => 0
  | 1 => 1
  | 2 => 1
  | n + 3 => recLeaves (n + 1) + recLeaves (n + 2)

/-- Number of combining steps `_recursive` performs below input `n`. -/
def recCombines : Nat → Nat
  | 0 => 0
  | 1 => 0
  | 2 => 0
  | n + 3 => recCombines (n + 1) + recCombines (n + 2) + 1

/-- The ghost event trace of one top-level `memoization` run (fresh dict). -/
def memoTrace (n : Nat) : Option (List MEvent) :=
  (memoizationAux n ⟨[], 0, []⟩).map fun p => p.2.events

/-- Every binding in the dict is a correct Fibonacci value. -/
def MemoGood (m : List (Nat × Nat)) : Prop :=
  ∀ k v, mlookup m k = some v → v = fib k

lemma recursiveAux_eq : ∀ n : Nat, 1 ≤ n → ∀ ops : Nat,
    recursiveAux n ops = some (fib n, ops + (recLeaves n + 7 * recCombines n)) := by
  intro n
  induction n using Nat.strong_induction_on with
  | _ n ih =>
    rcases n with _ | (_ | (_ | m))
    · exact fun h => absurd h (by decide)
    · intro _ ops
      simp [recursiveAux, fib, recLeaves, recCombines]
    · intro _ ops
      simp [recursiveAux, fib, recLeaves, recCombines]
    · intro _ ops
      have hA := ih (m + 1) (by omega) (by omega) ops
      have hB := ih (m + 2) (by omega) (by omega)
        (ops + (recLeaves (m + 1) + 7 * recCombines (m + 1)))
      simp only [recursiveAux, hA, hB, Option.some.injEq, Prod.mk.injEq]
      constructor
      · rfl
      · simp only [recLeaves, recCombines]
        omega

lemma recLeaves_eq : ∀ n : Nat, 1 ≤ n → recLeaves n = fib n := by
  intro n
  induction n using Nat.strong_induction_on with
  | _ n ih =>
    rcases n with _ | (_ | (_ | m))
    · exact fun h => absurd h (by decide)
    · intro _; rfl
    · intro _; rfl
    · intro _
      have hA := ih (m + 1) (by omega) (by omega)
      have hB := ih (m + 2) (by omega) (by omega)
      simp only [recLeaves, show fib (m + 3) = fib (m + 1) + fib (m + 2) from rfl]
      omega

lemma recCombines_succ : ∀ n : Nat, 1 ≤ n → recCombines n + 1 = fib n := by
  intro n
  induction n using Nat.strong_induction_on with
  | _ n ih =>
    rcases n with _ | (_ | (_ | m))
    · exact fun h => absurd h (by decide)
    · intro _; rfl
    · intro _; rfl
    · intro _
      have hA := ih (m + 1) (by omega) (by omega)
      have hB := ih (m + 2) (by omega) (by omega)
      simp only [recCombines, show fib (m + 3) = fib (m + 1) + fib (m + 2) from rfl]
      omega

lemma recursive_ok (s : FibState) (n : Nat) (h1 : 1 ≤ n) (h2 : n ≤ 40) :
    recursive s ↑n =
      some (.ok ⟨fib n, recLeaves n + 7 * recCombines n + 2⟩,
        { s with numOps := recLeaves n + 7 * recCombines n + 2 }) := by
  unfold recursive
  rw [if_neg (by omega), if_neg (by omega), Int.toNat_natCast, recursiveAux_eq n h1 0]
  simp

lemma dpLoop_zero (a b v ops : Nat) : dpLoop 0 a b v ops = (v, ops) := rfl

lemma dpLoop_succ (k a b v ops : Nat) :
    dpLoop (k + 1) a b v ops = dpLoop k b (a + b) (a + b) (ops + 4) := rfl

lemma dpLoop_spec : ∀ k m v ops : Nat,
    dpLoop (k + 1) (fib (m + 1)) (fib (m + 2)) v ops =
      (fib (m + k + 3), ops + 4 * (k + 1)) := by
  intro k
  induction k with
  | zero =>
    intro m v ops
    rw [dpLoop_succ, dpLoop_zero]
    exact congrArg₂ Prod.mk rfl (by omega)
  | succ k ih =>
    intro m v ops
    rw [dpLoop_succ]
    rw [show fib (m + 1) + fib (m + 2) = fib (m + 1 + 2) from rfl,
      show fib (m + 2) = fib (m + 1 + 1) from rfl,
      ih (m + 1) (fib (m + 1 + 2)) (ops + 4)]
    simp only [Prod.mk.injEq]
    constructor
    · congr 1
      omega
    · omega

lemma dpLoop_one (k v ops : Nat) :
    dpLoop (k + 1) 1 1 v ops = (fib (k + 3), ops + 4 * (k + 1)) := by
  have h := dpLoop_spec k 0 v ops
  simp only [Nat.zero_add] at h
  exact h

lemma dp_base (s : FibState) (n : Nat) (h1 : 1 ≤ n) (h2 : n ≤ 2) :
    dynamicProgramming s ↑n = (.ok ⟨1, 5⟩, { s with numOps := 5 }) := by
  interval_cases n
  · rfl
  · rfl

lemma dp_step (s : FibState) (n : Nat) (h3 : 3 ≤ n) (h2 : n ≤ 2000000) :
    dynamicProgramming s ↑n =
      (.ok ⟨fib n, 4 * n - 5⟩, { s with numOps := 4 * n - 5 }) := by
  unfold dynamicProgramming
  rw [if_neg (by omega), if_neg (by omega), if_neg (by omega), Int.toNat_natCast]
  rw [show n - 2 = (n - 3) + 1 from by omega, dpLoop_one (n - 3) 1 3]
  rw [show n - 3 + 3 = n from by omega, show 3 + 4 * (n - 3 + 1) = 4 * n - 5 from by omega]

lemma dp_value (s : FibState) (n : Nat) (h1 : 1 ≤ n) (h2 : n ≤ 2000000) :
    valueOf (dynamicProgramming s ↑n) = some (fib n) := by
  by_cases h : n ≤ 2
  · interval_cases n
    · rw [dp_base s 1 (by decide) (by decide)]; rfl
    · rw [dp_base s 2 (by decide) (by decide)]; rfl
  · rw [dp_step s n (by omega) h2]; rfl

lemma mlookup_cons_self (k v : Nat) (rest : List (Nat × Nat)) :
    mlookup ((k, v) :: rest) k = some v := by
  simp [mlookup]

lemma mlookup_cons_ne (k v key : Nat) (rest : List (Nat × Nat)) (h : key ≠ k) :
    mlookup ((k, v) :: rest) key = mlookup rest key := by
  simp [mlookup, h]

lemma mlookup_cons_isSome (k v key : Nat) (rest : List (Nat × Nat)) :
    (mlookup ((k, v) :: rest) key).isSome ↔ key = k ∨ (mlookup rest key).isSome := by
  by_cases h : key = k <;> simp [mlookup, h]

lemma memoGood_nil : MemoGood [] := by
  intro k v h
  simp [mlookup] at h

lemma memoGood_cons (k v : Nat) (rest : List (Nat × Nat)) (hv : v = fib k)
    (hg : MemoGood rest) : MemoGood ((k, v) :: rest) := by
  intro key w hw
  by_cases h : key = k
  · subst h
    rw [mlookup_cons_self] at hw
    injection hw with hw
    rw [← hw]
    exact hv
  · rw [mlookup_cons_ne _ _ _ _ h] at hw
    exact hg key w hw

lemma seedOne_lookup_one (st : MemoSt) (hg : MemoGood st.memo) :
    mlookup (seedOne st).memo 1 = some 1 := by
  cases hx : mlookup st.memo 1 with
  | some v =>
    have hv := hg 1 v hx
    simp [seedOne, hx, hv, fib]
  | none =>
    simp [seedOne, hx, mlookup]

lemma seedOne_lookup_ne (st : MemoSt) (key : Nat) (h : key ≠ 1) :
    mlookup (seedOne st).memo key = mlookup st.memo key := by
  unfold seedOne
  split
  · rfl
  · simp [mlookup, h]

lemma seedOne_keys (st : MemoSt) (key : Nat) :
    (mlookup (seedOne st).memo key).isSome ↔ (mlookup st.memo key).isSome ∨ key = 1 := by
  by_cases h : key = 1
  · subst h
    unfold seedOne
    split <;> simp_all [mlookup]
  · rw [seedOne_lookup_ne st key h]
    simp [h]

lemma seedOne_good (st : MemoSt) (hg : MemoGood st.memo) : MemoGood (seedOne st).memo := by
  unfold seedOne
  split
  · exact hg
  · exact memoGood_cons 1 1 st.memo rfl hg

lemma seedOne_events (st : MemoSt) :
    (seedOne st).events =
      st.events ++ (if (mlookup st.memo 1).isSome then [] else [MEvent.seed 1]) := by
  unfold seedOne
  split <;> simp_all

lemma seedTwo_lookup_two (st : MemoSt) (hg : MemoGood st.memo) :
    mlookup (seedTwo st).memo 2 = some 1 := by
  cases hx : mlookup st.memo 2 with
  | some v =>
    have hv := hg 2 v hx
    simp [seedTwo, hx, hv, fib]
  | none =>
    simp [seedTwo, hx, mlookup]

lemma seedTwo_lookup_ne (st : MemoSt) (key : Nat) (h : key ≠ 2) :
    mlookup (seedTwo st).memo key = mlookup st.memo key := by
  unfold seedTwo
  split
  · rfl
  · simp [mlookup, h]

lemma seedTwo_keys (st : MemoSt) (key : Nat) :
    (mlookup (seedTwo st).memo key).isSome ↔ (mlookup st.memo key).isSome ∨ key = 2 := by
  by_cases h : key = 2
  · subst h
    unfold seedTwo
    split <;> simp_all [mlookup]
  · rw [seedTwo_lookup_ne st key h]
    simp [h]

lemma seedTwo_good (st : MemoSt) (hg : MemoGood st.memo) : MemoGood (seedTwo st).memo := by
  unfold seedTwo
  split
  · exact hg
  · exact memoGood_cons 2 1 st.memo rfl hg

lemma seedTwo_events (st : MemoSt) :
    (seedTwo st).events =
      st.events ++ (if (mlookup st.memo 2).isSome then [] else [MEvent.seed 2]) := by
  unfold seedTwo
  split <;> simp_all

lemma seedMemo_lookup_one (st : MemoSt) (hg : MemoGood st.memo) :
    mlookup (seedMemo st).memo 1 = some 1 := by
  unfold seedMemo
  rw [seedTwo_lookup_ne _ _ (by decide)]
  exact seedOne_lookup_one st hg

lemma seedMemo_lookup_two (st : MemoSt) (hg : MemoGood st.memo) :
    mlookup (seedMemo st).memo 2 = some 1 :=
  seedTwo_lookup_two (seedOne st) (seedOne_good st hg)

lemma seedMemo_lookup_ne (st : MemoSt) (key : Nat) (h1 : key ≠ 1) (h2 : key ≠ 2) :
    mlookup (seedMemo st).memo key = mlookup st.memo key := by
  unfold seedMemo
  rw [seedTwo_lookup_ne _ _ h2, seedOne_lookup_ne _ _ h1]

lemma seedMemo_good (st : MemoSt) (hg : MemoGood st.memo) : MemoGood (seedMemo st).memo :=
  seedTwo_good _ (seedOne_good _ hg)

lemma seedMemo_keys (st : MemoSt) (key : Nat) :
    (mlookup (seedMemo st).memo key).isSome ↔
      (mlookup st.memo key).isSome ∨ key = 1 ∨ key = 2 := by
  unfold seedMemo
  rw [seedTwo_keys, seedOne_keys]
  tauto

lemma seedMemo_events (st : MemoSt) :
    (seedMemo st).events = st.events ++ seedEvs st.memo := by
  unfold seedMemo seedEvs
  rw [seedTwo_events, seedOne_lookup_ne st 2 (by decide), seedOne_events]
  simp [List.append_assoc]

lemma seedEvs_nil (m : List (Nat × Nat)) (h1 : (mlookup m 1).isSome)
    (h2 : (mlookup m 2).isSome) : seedEvs m = [] := by
  simp [seedEvs, h1, h2]

lemma memoizationAux_spec : ∀ n : Nat, 1 ≤ n → ∀ st : MemoSt, MemoGood st.memo →
    ∃ st2 ks, memoizationAux n st = some (fib n, st2) ∧
      MemoGood st2.memo ∧
      st2.events = st.events ++ seedEvs st.memo ++ List.map MEvent.combine ks ∧
      List.Nodup ks ∧
      (∀ k, k ∈ ks → mlookup st.memo k = none ∧ 3 ≤ k ∧ k ≤ n) ∧
      (∀ k, (mlookup st2.memo k).isSome ↔
        ((mlookup st.memo k).isSome ∨ k ∈ ks ∨ k = 1 ∨ k = 2)) := by
  intro n
  induction n using Nat.strong_induction_on with
  | _ n ih =>
    rcases n with _ | (_ | (_ | m))
    · exact fun h => absurd h (by decide)
    · intro _ st hg
      refine ⟨{ seedMemo st with ops := (seedMemo st).ops + 1 }, [], ?_, ?_, ?_, ?_, ?_, ?_⟩
      · simp [memoizationAux, seedMemo_lookup_one st hg, fib]
      · exact seedMemo_good st hg
      · show (seedMemo st).events = _
        rw [seedMemo_events st]
        simp
      · exact List.nodup_nil
      · intro k hk
        exact absurd hk (List.not_mem_nil k)
      · intro k
        show (mlookup (seedMemo st).memo k).isSome ↔ _
        rw [seedMemo_keys]
        simp
    · intro _ st hg
      refine ⟨{ seedMemo st with ops := (seedMemo st).ops + 1 }, [], ?_, ?_, ?_, ?_, ?_, ?_⟩
      · simp [memoizationAux, seedMemo_lookup_two st hg, fib]
      · exact seedMemo_good st hg
      · show (seedMemo st).events = _
        rw [seedMemo_events st]
        simp
      · exact List.nodup_nil
      · intro k hk
        exact absurd hk (List.not_mem_nil k)
      · intro k
        show (mlookup (seedMemo st).memo k).isSome ↔ _
        rw [seedMemo_keys]
        simp
    · intro _ st hg
      by_cases hhit : (mlookup (seedMemo st).memo (m + 3)).isSome
      · obtain ⟨v, hv⟩ := Option.isSome_iff_exists.mp hhit
        have hval : v = fib (m + 3) := seedMemo_good st hg (m + 3) v hv
        refine ⟨{ seedMemo st with ops := (seedMemo st).ops + 1 }, [], ?_, ?_, ?_, ?_, ?_, ?_⟩
        · simp [memoizationAux, hv, hval]
        · exact seedMemo_good st hg
        · show (seedMemo st).events = _
          rw [seedMemo_events st]
          simp
        · exact List.nodup_nil
        · intro k hk
          exact absurd hk (List.not_mem_nil k)
        · intro k
          show (mlookup (seedMemo st).memo k).isSome ↔ _
          rw [seedMemo_keys]
          simp
      · have hmiss : mlookup (seedMemo st).memo (m + 3) = none :=
          Option.not_isSome_iff_eq_none.mp hhit
        obtain ⟨stA, ks1, hA, hgA, hevA, hndA, hfrA, hkeyA⟩ :=
          ih (m + 1) (by omega) (by omega) (seedMemo st) (seedMemo_good st hg)
        obtain ⟨stB, ks2, hB, hgB, hevB, hndB, hfrB, hkeyB⟩ :=
          ih (m + 2) (by omega) (by omega) stA hgA
        have hA1 : (mlookup stA.memo 1).isSome := (hkeyA 1).mpr (by tauto)
        have hA2 : (mlookup stA.memo 2).isSome := (hkeyA 2).mpr (by tauto)
        have hseed2 : seedEvs (seedMemo st).memo = [] :=
          seedEvs_nil _ (by rw [seedMemo_lookup_one st hg]; rfl)
            (by rw [seedMemo_lookup_two st hg]; rfl)
        have hseedA : seedEvs stA.memo = [] := seedEvs_nil _ hA1 hA2
        refine ⟨⟨(m + 3, fib (m + 1) + fib (m + 2)) :: stB.memo, stB.ops + 7 + 1,
            stB.events ++ [MEvent.combine (m + 3)]⟩, ks1 ++ ks2 ++ [m + 3],
          ?_, ?_, ?_, ?_, ?_, ?_⟩
        · simp only [memoizationAux, hmiss, hA, hB, mlookup_cons_self, Option.getD_some]
          rfl
        · exact memoGood_cons _ _ _ rfl hgB
        · show stB.events ++ [MEvent.combine (m + 3)] = _
          rw [hevB, hseedA, hevA, hseed2, seedMemo_events st]
          simp [List.map_append, List.append_assoc]
        · rw [List.nodup_append, List.nodup_append]
          refine ⟨⟨hndA, hndB, ?_⟩, List.nodup_singleton _, ?_⟩
          · intro a ha hb
            have hsome : (mlookup stA.memo a).isSome := (hkeyA a).mpr (Or.inr (Or.inl ha))
            rw [(hfrB a hb).1] at hsome
            simp at hsome
          · intro a ha hb
            simp only [List.mem_singleton] at hb
            subst hb
            rcases List.mem_append.mp ha with h1 | h2
            · have := (hfrA _ h1).2.2
              omega
            · have := (hfrB _ h2).2.2
              omega
        · intro k hk
          rcases List.mem_append.mp hk with hk12 | hk3
          · rcases List.mem_append.mp hk12 with hk1 | hk2
            · obtain ⟨hn, h3, hle⟩ := hfrA k hk1
              refine ⟨?_, by omega, by omega⟩
              rw [← seedMemo_lookup_ne st k (by omega) (by omega)]
              exact hn
            · obtain ⟨hn, h3, hle⟩ := hfrB k hk2
              refine ⟨?_, by omega, by omega⟩
              have hns : ¬(mlookup st.memo k).isSome := by
                intro hs
                have h2 := (hkeyA k).mpr (Or.inl ((seedMemo_keys st k).mpr (Or.inl hs)))
                rw [hn] at h2
                simp at h2
              exact Option.not_isSome_iff_eq_none.mp hns
          · simp only [List.mem_singleton] at hk3
            subst hk3
            refine ⟨?_, by omega, by omega⟩
            rw [← seedMemo_lookup_ne st (m + 3) (by omega) (by omega)]
            exact hmiss
        · intro k
          show (mlookup ((m + 3, fib (m + 1) + fib (m + 2)) :: stB.memo) k).isSome ↔ _
          rw [mlookup_cons_isSome, hkeyB k, hkeyA k, seedMemo_keys st k]
          simp only [List.mem_append, List.mem_singleton]
          tauto

lemma memoization_valid (s : FibState) (n : Nat) (h1 : 1 ≤ n) (h2 : n ≤ 1995) :
    memoization s ↑n =
      match memoizationAux n ⟨[], 0, []⟩ with
      | none => none
      | some (v, st) => some (.ok ⟨v, st.ops + 2⟩, ⟨st.memo, st.ops + 2⟩) := by
  unfold memoization
  rw [if_neg (by omega), if_neg (by omega), Int.toNat_natCast]

lemma memoization_run (s : FibState) (n : Nat) (h1 : 1 ≤ n) (h2 : n ≤ 1995) :
    ∃ st2 : MemoSt,
      memoization s ↑n = some (.ok ⟨fib n, st2.ops + 2⟩, ⟨st2.memo, st2.ops + 2⟩) := by
  obtain ⟨st2, ks, hrun, _⟩ := memoizationAux_spec n h1 ⟨[], 0, []⟩ memoGood_nil
  exact ⟨st2, by rw [memoization_valid s n h1 h2, hrun]⟩

lemma memoization_value (s : FibState) (n : Nat) (h1 : 1 ≤ n) (h2 : n ≤ 1995) :
    valueOpt (memoization s ↑n) = some (fib n) := by
  obtain ⟨st2, h⟩ := memoization_run s n h1 h2
  rw [h]
  rfl

lemma recursive_value (s : FibState) (n : Nat) (h1 : 1 ≤ n) (h2 : n ≤ 40) :
    valueOpt (recursive s ↑n) = some (fib n) := by
  rw [recursive_ok s n h1 h2]
  rfl

/-- C1: for every `1 ≤ n ≤ 40` the three exact strategies all return the
mathematically correct nth Fibonacci number (with `fib 1 = fib 2 = 1`) as
value, so their values are pairwise equal; the spec's concrete instances
`dynamic_programming(10) = 55`, `memoization(20) = 6765` and
`recursive(30) = 832040` are discharged in the witness. -/
theorem exact_strategies_agree (s : FibState) (n : Nat) (h1 : 1 ≤ n) (h2 : n ≤ 40) :
    valueOpt (recursive s ↑n) = some (fib n) ∧
      valueOpt (memoization s ↑n) = some (fib n) ∧
      valueOf (dynamicProgramming s ↑n) = some (fib n) ∧
      valueOpt (recursive s ↑n) = valueOpt (memoization s ↑n) ∧
      valueOpt (memoization s ↑n) = valueOf (dynamicProgramming s ↑n) := by
  have hr := recursive_value s n h1 h2
  have hm := memoization_value s n h1 (by omega)
  have hd := dp_value s n h1 (by omega)
  exact ⟨hr, hm, hd, hr.trans hm.symm, hm.trans hd.symm⟩

/-- C1 witness: the spec's concrete values at n = 30, 20, 10. -/
theorem exact_strategies_agree_w :
    valueOpt (recursive fibInit 30) = some 832040 ∧
      valueOpt (memoization fibInit 20) = some 6765 ∧
      valueOf (dynamicProgramming fibInit 10) = some 55 := by
  have h := exact_strategies_agree fibInit 30 (by decide) (by decide)
  have hrd := h.1.trans h.2.2.1.symm
  exact ⟨hrd.trans (by decide), by decide, by decide⟩

/-- C2 (code-bug evidence): the spec and the comment in the source both state
a dynamic-programming bound of 20,000,000, but the guard in the code reads
`if n > 2000000`, so the in-claimed-domain input n = 2,000,001 is rejected
with `ValueError('TOO BIG')` instead of returning a Result. -/
theorem dp_guard_rejects_two_million_one :
    dynamicProgramming fibInit 2000001 =
      (.error ⟨"ValueError", "TOO BIG"⟩, fibInit) := rfl

/-- C3: with n = 0 or negative, every strategy fails with the
invalid-argument `ValueError`, and every validation failure (invalid
argument or out of range) returns the object state exactly as it was before
the call: validation precedes any state mutation. -/
theorem validation_before_mutation (s : FibState) (val : Nat → Nat) :
    (∀ n : Int, n < 1 →
      recursive s n = some (.error ⟨"ValueError", "Invalid value for n!"⟩, s) ∧
      memoization s n = some (.error ⟨"ValueError", "Invalid value for n!"⟩, s) ∧
      dynamicProgramming s n = (.error ⟨"ValueError", "invalid value for n!"⟩, s) ∧
      closedForm val s n = (.error ⟨"ValueError", "invalid value for n!"⟩, s)) ∧
    (∀ n : Int, 40 < n → recursive s n = some (.error ⟨"ValueError", "TOO BIG"⟩, s)) ∧
    (∀ n : Int, 1995 < n → memoization s n = some (.error ⟨"ValueError", "ERROR"⟩, s)) ∧
    (∀ n : Int, 2000000 < n →
      dynamicProgramming s n = (.error ⟨"ValueError", "TOO BIG"⟩, s)) ∧
    (∀ n : Int, 604 < n → closedForm val s n = (.error ⟨"ValueError", "TOO BIG"⟩, s)) := by
  refine ⟨?_, ?_, ?_, ?_, ?_⟩
  · intro n h
    exact ⟨by simp [recursive, h], by simp [memoization, h],
      by simp [dynamicProgramming, h], by simp [closedForm, h]⟩
  · intro n h
    unfold recursive
    rw [if_neg (by omega), if_pos (by omega)]
  · intro n h
    unfold memoization
    rw [if_neg (by omega), if_pos (by omega)]
  · intro n h
    unfold dynamicProgramming
    rw [if_neg (by omega), if_pos (by omega)]
  · intro n h
    unfold closedForm
    rw [if_neg (by omega), if_pos (by omega)]

/-- C3 witness: concrete validation failures leave the state untouched. -/
theorem validation_before_mutation_w :
    recursive fibInit 0 = some (.error ⟨"ValueError", "Invalid value for n!"⟩, fibInit) ∧
      memoization fibInit (-5) =
        some (.error ⟨"ValueError", "Invalid value for n!"⟩, fibInit) ∧
      recursive fibInit 41 = some (.error ⟨"ValueError", "TOO BIG"⟩, fibInit) ∧
      memoization fibInit 1996 = some (.error ⟨"ValueError", "ERROR"⟩, fibInit) ∧
      dynamicProgramming fibInit 2500000 = (.error ⟨"ValueError", "TOO BIG"⟩, fibInit) ∧
      closedForm (fun _ => 0) fibInit 605 = (.error ⟨"ValueError", "TOO BIG"⟩, fibInit) := by
  have h := validation_before_mutation fibInit (fun _ => 0)
  exact ⟨(h.1 0 (by decide)).1, (h.1 (-5) (by decide)).2.1, h.2.1 41 (by decide),
    h.2.2.1 1996 (by decide), h.2.2.2.1 2500000 (by decide), h.2.2.2.2 605 (by decide)⟩

/-- C4 counterexample: at n = 1 the recursive strategy reports 3 operation
units, while 1 per base-case return plus 7 per combining step alone gives 1:
the claim's "no other contributions" misses the wrapper's fixed charge. -/
theorem recursive_opcount_no_extra_cex :
    opsOpt (recursive fibInit 1) ≠ some (recLeaves 1 + 7 * recCombines 1) := by
  decide

/-- C4 (amended): for `1 ≤ n ≤ 40` the recursive strategy's operation count
is 1 unit per base-case return plus 7 units per combining step of the
recursion tree, plus a fixed top-level charge of 2 added by the wrapper. -/
theorem recursive_opcount_amended (s : FibState) (n : Nat) (h1 : 1 ≤ n) (h2 : n ≤ 40) :
    opsOpt (recursive s ↑n) = some (recLeaves n + 7 * recCombines n + 2) := by
  rw [recursive_ok s n h1 h2]
  rfl

/-- C4 witness: at n = 10 the amended count is 1·55 + 7·54 + 2 = 435. -/
theorem recursive_opcount_amended_w : opsOpt (recursive fibInit 10) = some 435 := by
  have h := recursive_opcount_amended fibInit 10 (by decide) (by decide)
  exact h.trans (by decide)

/-- C5: for any two object states (that is, after any two prior call
histories) and any argument, the same strategy returns the same outcome:
value, operation count, and error are all independent of history; only the
returned object state and the wall-clock duration may differ. -/
theorem results_independent_of_history (s s' : FibState) (n : Int) (val : Nat → Nat) :
    (recursive s n).map Prod.fst = (recursive s' n).map Prod.fst ∧
      (memoization s n).map Prod.fst = (memoization s' n).map Prod.fst ∧
      (dynamicProgramming s n).1 = (dynamicProgramming s' n).1 ∧
      (closedForm val s n).1 = (closedForm val s' n).1 := by
  refine ⟨?_, ?_, ?_, ?_⟩
  · unfold recursive
    split_ifs
    · rfl
    · rfl
    · cases recursiveAux n.toNat 0 <;> rfl
  · unfold memoization
    split_ifs <;> rfl
  · unfold dynamicProgramming
    split_ifs <;> rfl
  · unfold closedForm
    split_ifs <;> rfl

/-- C6: during one top-level `memoization(n)` call the cache starts fresh
(the outcome does not depend on the object state left by prior calls), the
base indices 1 and 2 are seeded before any combining step runs, and each
index is combined at most once: the event trace is exactly the two seeds
followed by a duplicate-free list of combining steps. -/
theorem memo_cache_discipline (n : Nat) (h1 : 1 ≤ n) (h2 : n ≤ 1995) :
    (∀ s s' : FibState, memoization s ↑n = memoization s' ↑n) ∧
      ∃ ks : List Nat,
        memoTrace n = some (MEvent.seed 1 :: MEvent.seed 2 :: List.map MEvent.combine ks) ∧
          List.Nodup ks := by
  obtain ⟨st2, ks, hrun, hgood, hev, hnd, hfr, hkey⟩ :=
    memoizationAux_spec n h1 ⟨[], 0, []⟩ memoGood_nil
  constructor
  · intro s s'
    rw [memoization_valid s n h1 h2, memoization_valid s' n h1 h2]
  · refine ⟨ks, ?_, hnd⟩
    unfold memoTrace
    rw [hrun]
    show some st2.events = _
    rw [hev]
    rfl

/-- C6 witness at n = 5: the run is independent of the prior object state and
its trace seeds 1 and 2 first, then combines 3, 4, 5, each exactly once. -/
theorem memo_cache_discipline_w :
    memoization fibInit 5 = memoization ⟨[(7, 7)], 3⟩ 5 ∧
      memoTrace 5 = some [MEvent.seed 1, MEvent.seed 2, MEvent.combine 3,
        MEvent.combine 4, MEvent.combine 5] := by
  have h := memo_cache_discipline 5 (by decide) (by decide)
  exact ⟨h.1 fibInit ⟨[(7, 7)], 3⟩, by decide⟩

/-- C8: for `1 ≤ n ≤ 40` the recursive strategy's operation count is exactly
`8 · fib n − 5`: the recursion tree has `fib n` base-case leaves charged 1,
`fib n − 1` combining steps charged 7, plus the wrapper's fixed charge 2. -/
theorem recursive_opcount_eight_fib (s : FibState) (n : Nat) (h1 : 1 ≤ n) (h2 : n ≤ 40) :
    opsOpt (recursive s ↑n) = some (8 * fib n - 5) := by
  rw [recursive_ok s n h1 h2]
  have hl := recLeaves_eq n h1
  have hc := recCombines_succ n h1
  show some (recLeaves n + 7 * recCombines n + 2) = some (8 * fib n - 5)
  exact congrArg some (by omega)

/-- C8 witness: at n = 9, `8 · 34 − 5 = 267`. -/
theorem recursive_opcount_eight_fib_w : opsOpt (recursive fibInit 9) = some 267 := by
  have h := recursive_opcount_eight_fib fibInit 9 (by decide) (by decide)
  exact h.trans (by decide)

/-- C9: over the guard's whole valid domain the dynamic-programming
operation count is 5 when n is 1 or 2, and `4n − 5` when n ≥ 3. -/
theorem dp_opcount_formula (s : FibState) (n : Nat) (h1 : 1 ≤ n) (h2 : n ≤ 2000000) :
    ((n = 1 ∨ n = 2) → opsOf (dynamicProgramming s ↑n) = some 5) ∧
      (3 ≤ n → opsOf (dynamicProgramming s ↑n) = some (4 * n - 5)) := by
  constructor
  · intro h
    rw [dp_base s n h1 (by omega)]
    rfl
  · intro h
    rw [dp_step s n h h2]
    rfl

/-- C9 witness: n = 1 gives 5 and n = 4 gives `4·4 − 5 = 11`. -/
theorem dp_opcount_formula_w :
    opsOf (dynamicProgramming fibInit 1) = some 5 ∧
      opsOf (dynamicProgramming fibInit 4) = some 11 := by
  refine ⟨(dp_opcount_formula fibInit 1 (by decide) (by decide)).1 (by decide), ?_⟩
  exact ((dp_opcount_formula fibInit 4 (by decide) (by decide)).2 (by decide)).trans
    (by decide)

/-- C10: every failure any strategy can raise is the single exception type
`ValueError`; the failure kinds differ only in the carried message string
(`Invalid value for n!` or `invalid value for n!` for an invalid argument,
`TOO BIG` or `ERROR` for out of range). -/
theorem errors_single_exception_type (s : FibState) (val : Nat → Nat) (n : Int) :
    (∀ e, errOpt (recursive s n) = some e → e.excType = "ValueError" ∧
      (e.msg = "Invalid value for n!" ∨ e.msg = "TOO BIG")) ∧
    (∀ e, errOpt (memoization s n) = some e → e.excType = "ValueError" ∧
      (e.msg = "Invalid value for n!" ∨ e.msg = "ERROR")) ∧
    (∀ e, errOf (dynamicProgramming s n) = some e → e.excType = "ValueError" ∧
      (e.msg = "invalid value for n!" ∨ e.msg = "TOO BIG")) ∧
    (∀ e, errOf (closedForm val s n) = some e → e.excType = "ValueError" ∧
      (e.msg = "invalid value for n!" ∨ e.msg = "TOO BIG")) := by
  refine ⟨?_, ?_, ?_, ?_⟩
  · intro e he
    unfold recursive at he
    split_ifs at he
    · have h2 : some (⟨"ValueError", "Invalid value for n!"⟩ : PyError) = some e := he
      injection h2 with h2
      rw [← h2]
      exact ⟨rfl, Or.inl rfl⟩
    · have h2 : some (⟨"ValueError", "TOO BIG"⟩ : PyError) = some e := he
      injection h2 with h2
      rw [← h2]
      exact ⟨rfl, Or.inr rfl⟩
    · cases hx : recursiveAux n.toNat 0 with
      | none =>
        rw [hx] at he
        exact Option.noConfusion he
      | some p =>
        rw [hx] at he
        exact Option.noConfusion he
  · intro e he
    unfold memoization at he
    split_ifs at he
    · have h2 : some (⟨"ValueError", "Invalid value for n!"⟩ : PyError) = some e := he
      injection h2 with h2
      rw [← h2]
      exact ⟨rfl, Or.inl rfl⟩
    · have h2 : some (⟨"ValueError", "ERROR"⟩ : PyError) = some e := he
      injection h2 with h2
      rw [← h2]
      exact ⟨rfl, Or.inr rfl⟩
    · cases hx : memoizationAux n.toNat ⟨[], 0, []⟩ with
      | none =>
        rw [hx] at he
        exact Option.noConfusion he
      | some p =>
        obtain ⟨v, st2⟩ := p
        rw [hx] at he
        exact Option.noConfusion he
  · intro e he
    unfold dynamicProgramming at he
    split_ifs at he
    · have h2 : some (⟨"ValueError", "invalid value for n!"⟩ : PyError) = some e := he
      injection h2 with h2
      rw [← h2]
      exact ⟨rfl, Or.inl rfl⟩
    · have h2 : some (⟨"ValueError", "TOO BIG"⟩ : PyError) = some e := he
      injection h2 with h2
      rw [← h2]
      exact ⟨rfl, Or.inr rfl⟩
    · exact Option.noConfusion he
    · exact Option.noConfusion he
  · intro e he
    unfold closedForm at he
    split_ifs at he
    · have h2 : some (⟨"ValueError", "invalid value for n!"⟩ : PyError) = some e := he
      injection h2 with h2
      rw [← h2]
      exact ⟨rfl, Or.inl rfl⟩
    · have h2 : some (⟨"ValueError", "TOO BIG"⟩ : PyError) = some e := he
      injection h2 with h2
      rw [← h2]
      exact ⟨rfl, Or.inr rfl⟩
    · exact Option.noConfusion he

/-- C10 witness: the invalid-argument failure of `recursive` at n = 0 and the
out-of-range failure of `dynamicProgramming` at n = 2,500,000 both carry the
exception type `ValueError` and one of the documented messages. -/
theorem errors_single_exception_type_w :
    ((⟨"ValueError", "Invalid value for n!"⟩ : PyError).excType = "ValueError" ∧
      ((⟨"ValueError", "Invalid value for n!"⟩ : PyError).msg = "Invalid value for n!" ∨
        (⟨"ValueError", "Invalid value for n!"⟩ : PyError).msg = "TOO BIG")) ∧
    ((⟨"ValueError", "TOO BIG"⟩ : PyError).excType = "ValueError" ∧
      ((⟨"ValueError", "TOO BIG"⟩ : PyError).msg = "invalid value for n!" ∨
        (⟨"ValueError", "TOO BIG"⟩ : PyError).msg = "TOO BIG")) := by
  refine ⟨?_, ?_⟩
  · exact (errors_single_exception_type fibInit (fun _ => 0) 0).1
      ⟨"ValueError", "Invalid value for n!"⟩ rfl
  · exact (errors_single_exception_type fibInit (fun _ => 0) 2500000).2.2.1
      ⟨"ValueError", "TOO BIG"⟩ rfl
